import Mathlib

/-!
Shallow embedding of the physics and collision core of the rubato engine
(rigid-body integration, collision response policies, fixed-timestep
scheduler), together with proofs of the behavioural claims about it.

Scalars are modelled as rationals. The source files embedded here are
src/rubato/sprite/rigidbody.py and the fixed-update portion of
src/rubato/game.py. The utility modules (vector, math, time, sat) are not
present under src/, so the operations they provide are modelled from the
spec where needed; each such definition carries a doc comment saying so.
-/

namespace Rubato

/-- A 2D vector with rational components, as in the vector utility module. -/
structure Vec where
  x : ℚ
  y : ℚ
deriving DecidableEq, Repr

instance : Add Vec := ⟨fun a b => ⟨a.x + b.x, a.y + b.y⟩⟩

instance : Sub Vec := ⟨fun a b => ⟨a.x - b.x, a.y - b.y⟩⟩

instance : HMul Vec ℚ Vec := ⟨fun a k => ⟨a.x * k, a.y * k⟩⟩

instance : HDiv Vec ℚ Vec := ⟨fun a k => ⟨a.x / k, a.y / k⟩⟩

theorem Vec.add_def (a b : Vec) : a + b = ⟨a.x + b.x, a.y + b.y⟩ := rfl

theorem Vec.sub_def (a b : Vec) : a - b = ⟨a.x - b.x, a.y - b.y⟩ := rfl

theorem Vec.smul_def (a : Vec) (k : ℚ) : a * k = ⟨a.x * k, a.y * k⟩ := rfl

theorem Vec.sdiv_def (a : Vec) (k : ℚ) : a / k = ⟨a.x / k, a.y / k⟩ := rfl

/-- Modelled from the spec: rounding of one scalar to 4 decimal places
(Vector.round lives in the vector utility module, absent from src).
The spec requires separation vectors to be rounded to a fixed decimal
precision of 4 places. -/
def round4 (q : ℚ) : ℚ := (round (q * 10000) : ℤ) / 10000

/-- Rounding of a vector to 4 decimal places, component-wise. -/
def roundV4 (v : Vec) : Vec := ⟨round4 v.x, round4 v.y⟩

/-- Modelled from the spec: Math.sign (the math utility module is absent
from src). The spec reads the sign of the separation component as +1
exactly when the separation pushed the body upward, so positive input
gives 1, negative gives -1, zero gives 0. -/
def sign (q : ℚ) : ℤ := if 0 < q then 1 else if q < 0 then -1 else 0

/-- Modelled from the spec: clamping of one scalar into a closed interval,
used by the velocity clamp (the vector utility module is absent from src).
The spec states the velocity is clamped component-wise to
[min_speed, max_speed]. -/
def clampQ (v lo hi : ℚ) : ℚ := if v < lo then lo else if hi < v then hi else v

/-- Component-wise clamp of a vector into [lo, hi], per the spec sentence
on velocity clamping. -/
def clampVec (v : Vec) (lo hi : ℚ) : Vec := ⟨clampQ v.x lo hi, clampQ v.y lo hi⟩

/-- Modelled from the spec: Vector.absolute (called by the integration
step right after the clamp) lives in the vector utility module, absent
from src. The spec enumerates the mutations of the integration step
exhaustively and lists no velocity change after the clamp, so this call
is modelled as making no change. -/
def absoluteV (v : Vec) : Vec := v

/-- The collision type tag of a body, per the data model: {STATIC, DYNAMIC}. -/
inductive COL_TYPE where
  | STATIC : COL_TYPE
  | DYNAMIC : COL_TYPE
deriving DecidableEq, Repr

/-- The result of a positive overlap test: the separation vector, expressed
in the frame of the first shape (shape references carry no physics data
and are omitted). -/
structure CollisionInfo where
  sep : Vec
deriving DecidableEq, Repr

/-- A rigid body: kinematic state plus the per-body parameters the
integration step reads (gravity, friction, min_speed, max_speed), the
collision type tag and the grounded flag, as in rigidbody.py. -/
structure RigidBody where
  pos : Vec
  velocity : Vec
  acceleration : Vec
  rotation : ℚ
  angvel : ℚ
  mass : ℚ
  gravity : ℚ
  friction : ℚ
  min_speed : ℚ
  max_speed : ℚ
  col_type : COL_TYPE
  grounded : Bool
deriving DecidableEq, Repr

/-- One simulation step on the rigidbody, translated statement by
statement from RigidBody.physics in rigidbody.py: the velocity gains
acceleration (gravity added on the y component) times dt, is damped by
friction, clamped, passed through absolute; then position gains velocity
times dt and rotation gains angular velocity times dt. The dt argument
stands for Time.delta_time in seconds. -/
def physics (b : RigidBody) (dt : ℚ) : RigidBody :=
  let v1 : Vec := ⟨b.velocity.x + b.acceleration.x * dt,
                   b.velocity.y + (b.acceleration.y + b.gravity) * dt⟩
  let v2 := v1 * b.friction
  let v3 := clampVec v2 b.min_speed b.max_speed
  let v4 := absoluteV v3
  { b with
    velocity := v4
    pos := ⟨b.pos.x + v4.x * dt, b.pos.y + v4.y * dt⟩
    rotation := b.rotation + b.angvel * dt }

/-- RigidBody.set_force from rigidbody.py: replaces the acceleration by
force divided by mass, component-wise. -/
def set_force (b : RigidBody) (force : Vec) : RigidBody :=
  { b with acceleration := ⟨force.x / b.mass, force.y / b.mass⟩ }

/-- Modelled from the spec: Time.delayed_call (the time utility module is
absent from src) registers one deferred call with the timer collaborator.
The registration is represented by the list of (delay, callback) pairs it
adds to the timer queue. -/
def delayed_call (time : ℚ) (fn : RigidBody → RigidBody) :
    List (ℚ × (RigidBody → RigidBody)) := [(time, fn)]

/-- RigidBody.set_impulse from rigidbody.py: sets the force immediately,
then registers a deferred call that sets the force to the zero vector.
Returns the mutated body together with the deferred calls registered. -/
def set_impulse (b : RigidBody) (force : Vec) (time : ℚ) :
    RigidBody × List (ℚ × (RigidBody → RigidBody)) :=
  (set_force b force, delayed_call time (fun s => set_force s ⟨0, 0⟩))

/-- Modelled from the spec: SAT.overlap (the sat module is absent from
src). The geometric MTV computation over the two hitboxes is abstracted
into the raw argument (none when some axis separates the shapes, some mtv
otherwise); step 5 of the SAT algorithm in the spec rounds the resulting
separation vector to 4 decimal places and packages it into a
CollisionInfo. -/
def SAToverlap (raw : Option Vec) : Option CollisionInfo :=
  raw.map fun v => ⟨roundV4 v⟩

/-- The type of collision callbacks. The source callback receives the
CollisionInfo and may mutate the two bodies through its closure, so it is
modelled as a transformer of the pair of bodies. -/
def Cb : Type := CollisionInfo → RigidBody × RigidBody → RigidBody × RigidBody

/-- The default callback of the three entry points: it does nothing. -/
def noopCb : Cb := fun _ st => st

/-- RigidBody.collide from rigidbody.py, translated statement by
statement. The grounded flag of self is cleared, SAT runs, the separation
vector is rounded to 4 places, and the branch on the collision types
applies the positional correction and velocity zeroing; the callback runs
afterwards on the mutated pair exactly when a collision was found, and the
CollisionInfo is returned. -/
def collide (self other : RigidBody) (raw : Option Vec) (cb : Cb) :
    (RigidBody × RigidBody) × Option CollisionInfo :=
  let self := { self with grounded := false }
  match SAToverlap raw with
  | some c0 =>
      let col : CollisionInfo := ⟨roundV4 c0.sep⟩
      if other.col_type = COL_TYPE.STATIC then
        let self := { self with pos := self.pos - col.sep }
        let self := { self with grounded := sign col.sep.y == 1 }
        let self := if self.grounded
          then { self with velocity := ⟨self.velocity.x, 0⟩ } else self
        let self := if 0 < |col.sep.x|
          then { self with velocity := ⟨0, self.velocity.y⟩ } else self
        (cb col (self, other), some col)
      else if self.col_type = COL_TYPE.STATIC then
        let other := { other with pos := other.pos + col.sep }
        let other := { other with grounded := sign col.sep.y == -1 }
        let other := if other.grounded
          then { other with velocity := ⟨other.velocity.x, 0⟩ } else other
        let other := if 0 < |col.sep.x|
          then { other with velocity := ⟨0, other.velocity.y⟩ } else other
        (cb col (self, other), some col)
      else
        let self := { self with pos := self.pos - col.sep / (2 : ℚ) }
        let other := { other with pos := other.pos + col.sep / (2 : ℚ) }
        (cb col (self, other), some col)
  | none => ((self, other), none)

/-- RigidBody.bounce from rigidbody.py, translated statement by statement.
It clears the grounded flag, runs SAT, rounds the separation vector, sets
grounded from the sign of the y separation, and applies the same
positional branching as collide without any velocity change; the callback
runs afterwards exactly when a collision was found. -/
def bounce (self other : RigidBody) (raw : Option Vec) (cb : Cb) :
    (RigidBody × RigidBody) × Option CollisionInfo :=
  let self := { self with grounded := false }
  match SAToverlap raw with
  | some c0 =>
      let col : CollisionInfo := ⟨roundV4 c0.sep⟩
      let self := { self with grounded := sign col.sep.y == 1 }
      if other.col_type = COL_TYPE.STATIC then
        let self := { self with pos := self.pos - col.sep }
        (cb col (self, other), some col)
      else if self.col_type = COL_TYPE.STATIC then
        let other := { other with pos := other.pos + col.sep }
        (cb col (self, other), some col)
      else
        let self := { self with pos := self.pos - col.sep / (2 : ℚ) }
        let other := { other with pos := other.pos + col.sep / (2 : ℚ) }
        (cb col (self, other), some col)
  | none => ((self, other), none)

/-- RigidBody.overlap from rigidbody.py: runs SAT and fires the callback
when a collision is detected, mutating nothing itself; in particular it
does not touch the grounded flag. -/
def overlap (self other : RigidBody) (raw : Option Vec) (cb : Cb) :
    (RigidBody × RigidBody) × Option CollisionInfo :=
  match SAToverlap raw with
  | some col => (cb col (self, other), some col)
  | none => ((self, other), none)

/-- The inner while loop of the fixed-update section of Game.loop in
game.py: while physics_counter >= fixed_delta, run exactly one fixed-rate
update and subtract fixed_delta from the counter. The first result is the
number of fixed updates run; fuel bounds the number of iterations (any
fuel with dt at most fuel * fixed_delta is enough, as proved below). -/
def drain : ℕ → ℚ → ℚ → ℕ × ℚ
  | 0, counter, _ => (0, counter)
  | fuel + 1, counter, fd =>
      if fd ≤ counter then
        let p := drain fuel (counter - fd) fd
        (p.1 + 1, p.2)
      else (0, counter)

/-- State of the fixed-timestep scheduler: the physics time accumulator
and, for each fixed-rate update invoked so far, the dt it ran with. -/
structure SchedState where
  physics_counter : ℚ
  fixedCalls : List ℚ
deriving DecidableEq, Repr

/-- One frame of the fixed-update section of Game.loop: accumulate the
frame delta into physics_counter, then drain whole fixed steps. Each
fixed update is recorded with the dt it runs with, namely fixed_delta;
modelled from the spec for that dt value, since the body of the fixed
update chain is absent from src. -/
def frame (fuel : ℕ) (fd dt : ℚ) (s : SchedState) : SchedState :=
  let p := drain fuel (s.physics_counter + dt) fd
  { physics_counter := p.2
    fixedCalls := s.fixedCalls ++ List.replicate p.1 fd }

/-- Runs n frames of the main loop with a mocked constant frame delta dt,
as in the fixed-step determinism property of the spec. -/
def runFrames : ℕ → ℕ → ℚ → ℚ → SchedState → SchedState
  | 0, _, _, _, s => s
  | n + 1, fuel, fd, dt, s => runFrames n fuel fd dt (frame fuel fd dt s)

/-- Claim C1: one integration step performs exactly the listed mutations
in order: velocity gains (acceleration + gravity) * dt with gravity acting
as the vector (0, g), then velocity is damped by friction, then clamped
component-wise to [min_speed, max_speed]; then position gains
velocity * dt and rotation gains angvel * dt; no other change is made to
the velocity by the step, and the remaining fields are untouched. -/
theorem physics_step_exact (b : RigidBody) (dt : ℚ) :
    (physics b dt).velocity
        = clampVec ((b.velocity + (b.acceleration + ⟨0, b.gravity⟩) * dt)
            * b.friction) b.min_speed b.max_speed
    ∧ (physics b dt).pos = b.pos + (physics b dt).velocity * dt
    ∧ (physics b dt).rotation = b.rotation + b.angvel * dt
    ∧ (physics b dt).acceleration = b.acceleration
    ∧ (physics b dt).angvel = b.angvel
    ∧ (physics b dt).mass = b.mass
    ∧ (physics b dt).col_type = b.col_type
    ∧ (physics b dt).grounded = b.grounded := by
  refine ⟨?_, rfl, rfl, rfl, rfl, rfl, rfl, rfl⟩
  show absoluteV _ = _
  simp only [absoluteV, physics, Vec.add_def, Vec.smul_def]
  ring_nf

theorem round4_idem (q : ℚ) : round4 (round4 q) = round4 q := by
  have h : ((round (q * 10000) : ℤ) : ℚ) / 10000 * 10000
      = ((round (q * 10000) : ℤ) : ℚ) := by
    field_simp
  unfold round4
  rw [h, round_intCast]

theorem roundV4_idem (v : Vec) : roundV4 (roundV4 v) = roundV4 v := by
  simp [roundV4, round4_idem]

/-- A body with all-zero kinematic state, used as a concrete input. -/
def bZero : RigidBody :=
  { pos := ⟨0, 0⟩, velocity := ⟨0, 0⟩, acceleration := ⟨0, 0⟩,
    rotation := 0, angvel := 0, mass := 1, gravity := 0, friction := 1,
    min_speed := -100, max_speed := 100,
    col_type := COL_TYPE.DYNAMIC, grounded := false }

/-- A STATIC variant of the zero body. -/
def bStat : RigidBody := { bZero with col_type := COL_TYPE.STATIC }

/-- Claim C2: when a DYNAMIC body collides against a STATIC other and SAT
reports an overlap, the returned separation vector sep is the rounded MTV,
the position of self is decreased by exactly sep, grounded is set to
(sign of sep.y == 1), velocity.y is zeroed when grounded holds, and
velocity.x is zeroed whenever sep.x is non-zero, all in that one call. -/
theorem collide_static_other (self other : RigidBody) (v : Vec)
    (hother : other.col_type = COL_TYPE.STATIC) :
    (collide self other (some v) noopCb).2 = some ⟨roundV4 v⟩
    ∧ (collide self other (some v) noopCb).1.1.pos = self.pos - roundV4 v
    ∧ (collide self other (some v) noopCb).1.1.grounded
        = (sign (roundV4 v).y == 1)
    ∧ ((collide self other (some v) noopCb).1.1.grounded = true →
        (collide self other (some v) noopCb).1.1.velocity.y = 0)
    ∧ ((roundV4 v).x ≠ 0 →
        (collide self other (some v) noopCb).1.1.velocity.x = 0) := by
  have hsep := roundV4_idem v
  simp only [collide, SAToverlap, Option.map, hother, hsep, noopCb]
  split_ifs with h1 h2 h2 <;>
    simp_all [abs_pos]

/-- Witness for claim C2 at a concrete input: the zero dynamic body against
a STATIC body, with raw MTV (1/3, 1/2). -/
theorem collide_static_other_witness :
    bStat.col_type = COL_TYPE.STATIC
    ∧ ((collide bZero bStat (some ⟨1/3, 1/2⟩) noopCb).2
          = some ⟨roundV4 ⟨1/3, 1/2⟩⟩
      ∧ (collide bZero bStat (some ⟨1/3, 1/2⟩) noopCb).1.1.pos
          = bZero.pos - roundV4 ⟨1/3, 1/2⟩
      ∧ (collide bZero bStat (some ⟨1/3, 1/2⟩) noopCb).1.1.grounded
          = (sign (roundV4 ⟨1/3, 1/2⟩).y == 1)
      ∧ ((collide bZero bStat (some ⟨1/3, 1/2⟩) noopCb).1.1.grounded = true →
          (collide bZero bStat (some ⟨1/3, 1/2⟩) noopCb).1.1.velocity.y = 0)
      ∧ ((roundV4 ⟨1/3, 1/2⟩).x ≠ 0 →
          (collide bZero bStat (some ⟨1/3, 1/2⟩) noopCb).1.1.velocity.x = 0)) :=
  ⟨rfl, collide_static_other bZero bStat ⟨1/3, 1/2⟩ rfl⟩

/-- Claim C4: when two DYNAMIC bodies collide and SAT reports an overlap,
self moves by exactly minus half the separation vector, other by exactly
plus half of it, and the velocities, accelerations, rotations and angular
velocities of both bodies are unchanged by the call. -/
theorem collide_dynamic_pair (self other : RigidBody) (v : Vec)
    (hs : self.col_type = COL_TYPE.DYNAMIC)
    (ho : other.col_type = COL_TYPE.DYNAMIC) :
    (collide self other (some v) noopCb).1.1.pos
        = self.pos - roundV4 v / (2 : ℚ)
    ∧ (collide self other (some v) noopCb).1.2.pos
        = other.pos + roundV4 v / (2 : ℚ)
    ∧ (collide self other (some v) noopCb).1.1.velocity = self.velocity
    ∧ (collide self other (some v) noopCb).1.2.velocity = other.velocity
    ∧ (collide self other (some v) noopCb).1.1.acceleration
        = self.acceleration
    ∧ (collide self other (some v) noopCb).1.2.acceleration
        = other.acceleration
    ∧ (collide self other (some v) noopCb).1.1.rotation = self.rotation
    ∧ (collide self other (some v) noopCb).1.2.rotation = other.rotation
    ∧ (collide self other (some v) noopCb).1.1.angvel = self.angvel
    ∧ (collide self other (some v) noopCb).1.2.angvel = other.angvel := by
  have hsep := roundV4_idem v
  simp [collide, SAToverlap, Option.map, hs, ho, hsep, noopCb]

/-- Witness for claim C4 at a concrete input: two zero dynamic bodies with
raw MTV (1/3, 1/2). -/
theorem collide_dynamic_pair_witness :
    bZero.col_type = COL_TYPE.DYNAMIC
    ∧ ((collide bZero bZero (some ⟨1/3, 1/2⟩) noopCb).1.1.pos
          = bZero.pos - roundV4 ⟨1/3, 1/2⟩ / (2 : ℚ)
      ∧ (collide bZero bZero (some ⟨1/3, 1/2⟩) noopCb).1.2.pos
          = bZero.pos + roundV4 ⟨1/3, 1/2⟩ / (2 : ℚ)
      ∧ (collide bZero bZero (some ⟨1/3, 1/2⟩) noopCb).1.1.velocity
          = bZero.velocity
      ∧ (collide bZero bZero (some ⟨1/3, 1/2⟩) noopCb).1.2.velocity
          = bZero.velocity
      ∧ (collide bZero bZero (some ⟨1/3, 1/2⟩) noopCb).1.1.acceleration
          = bZero.acceleration
      ∧ (collide bZero bZero (some ⟨1/3, 1/2⟩) noopCb).1.2.acceleration
          = bZero.acceleration
      ∧ (collide bZero bZero (some ⟨1/3, 1/2⟩) noopCb).1.1.rotation
          = bZero.rotation
      ∧ (collide bZero bZero (some ⟨1/3, 1/2⟩) noopCb).1.2.rotation
          = bZero.rotation
      ∧ (collide bZero bZero (some ⟨1/3, 1/2⟩) noopCb).1.1.angvel
          = bZero.angvel
      ∧ (collide bZero bZero (some ⟨1/3, 1/2⟩) noopCb).1.2.angvel
          = bZero.angvel) :=
  ⟨rfl, collide_dynamic_pair bZero bZero ⟨1/3, 1/2⟩ rfl rfl⟩

/-- Claim C10: when both bodies are STATIC and SAT reports an overlap, the
branch for a STATIC other is taken: self, although STATIC, has its
position moved by the full separation vector, grounded set from the sign
of sep.y, and its velocity components zeroed under the same conditions as
a DYNAMIC body, while other is left entirely unchanged. -/
theorem collide_both_static (self other : RigidBody) (v : Vec)
    (hs : self.col_type = COL_TYPE.STATIC)
    (ho : other.col_type = COL_TYPE.STATIC) :
    (collide self other (some v) noopCb).1.1.pos = self.pos - roundV4 v
    ∧ (collide self other (some v) noopCb).1.1.grounded
        = (sign (roundV4 v).y == 1)
    ∧ ((collide self other (some v) noopCb).1.1.grounded = true →
        (collide self other (some v) noopCb).1.1.velocity.y = 0)
    ∧ ((roundV4 v).x ≠ 0 →
        (collide self other (some v) noopCb).1.1.velocity.x = 0)
    ∧ (collide self other (some v) noopCb).1.2 = other := by
  have hsep := roundV4_idem v
  simp only [collide, SAToverlap, Option.map, ho, hsep, noopCb]
  split_ifs with h1 h2 h2 <;>
    simp_all [abs_pos]

/-- Witness for claim C10 at a concrete input: two STATIC bodies with raw
MTV (1/3, 1/2). -/
theorem collide_both_static_witness :
    bStat.col_type = COL_TYPE.STATIC
    ∧ ((collide bStat bStat (some ⟨1/3, 1/2⟩) noopCb).1.1.pos
          = bStat.pos - roundV4 ⟨1/3, 1/2⟩
      ∧ (collide bStat bStat (some ⟨1/3, 1/2⟩) noopCb).1.1.grounded
          = (sign (roundV4 ⟨1/3, 1/2⟩).y == 1)
      ∧ ((collide bStat bStat (some ⟨1/3, 1/2⟩) noopCb).1.1.grounded = true →
          (collide bStat bStat (some ⟨1/3, 1/2⟩) noopCb).1.1.velocity.y = 0)
      ∧ ((roundV4 ⟨1/3, 1/2⟩).x ≠ 0 →
          (collide bStat bStat (some ⟨1/3, 1/2⟩) noopCb).1.1.velocity.x = 0)
      ∧ (collide bStat bStat (some ⟨1/3, 1/2⟩) noopCb).1.2 = bStat) :=
  ⟨rfl, collide_both_static bStat bStat ⟨1/3, 1/2⟩ rfl rfl⟩

/-- Claim C5: on every state and every SAT outcome, bounce applies exactly
the same position mutations as collide would (same STATIC/DYNAMIC
branching, same separation vector, same half-splitting), returns the same
CollisionInfo, and never modifies the velocity of either body. -/
theorem bounce_positions_match_collide (self other : RigidBody)
    (raw : Option Vec) :
    (bounce self other raw noopCb).1.1.pos
        = (collide self other raw noopCb).1.1.pos
    ∧ (bounce self other raw noopCb).1.2.pos
        = (collide self other raw noopCb).1.2.pos
    ∧ (bounce self other raw noopCb).2 = (collide self other raw noopCb).2
    ∧ (bounce self other raw noopCb).1.1.velocity = self.velocity
    ∧ (bounce self other raw noopCb).1.2.velocity = other.velocity := by
  cases raw with
  | none => simp [bounce, collide, SAToverlap, noopCb]
  | some v =>
      simp only [bounce, collide, SAToverlap, Option.map, noopCb]
      split_ifs <;> simp_all

/-- A variant of the zero body whose grounded flag is set. -/
def bGrounded : RigidBody := { bZero with grounded := true }

/-- Claim C6 counterexample: overlap does not reset the grounded flag.
A body that enters the call with grounded true and for which SAT detects
no collision still has grounded true when the call returns, refuting the
claim that all three entry points reset the flag before the test. -/
theorem overlap_keeps_grounded_cex :
    (overlap bGrounded bZero none noopCb).1.1.grounded = true := by
  decide

/-- Claim C6 (amended): collide and bounce reset the grounded flag of the
calling body to false before the SAT test, so when no collision is
detected the flag is false on return; overlap leaves the grounded flag of
the calling body unchanged. -/
theorem grounded_reset_amended (self other : RigidBody) (cb : Cb)
    (raw : Option Vec) :
    (collide self other none cb).1.1.grounded = false
    ∧ (bounce self other none cb).1.1.grounded = false
    ∧ (overlap self other raw noopCb).1.1.grounded = self.grounded := by
  refine ⟨rfl, rfl, ?_⟩
  cases raw <;> simp [overlap, SAToverlap, noopCb]

/-- Claim C7: on every positive overlap test, the CollisionInfo delivered
to the caller by each of collide, bounce and overlap carries a separation
vector rounded to 4 decimal places: all three return the rounded MTV, and
rounding it again does not change it. -/
theorem sep_rounded_4dp (self other : RigidBody) (v : Vec) :
    (collide self other (some v) noopCb).2 = some ⟨roundV4 v⟩
    ∧ (bounce self other (some v) noopCb).2 = some ⟨roundV4 v⟩
    ∧ (overlap self other (some v) noopCb).2 = some ⟨roundV4 v⟩
    ∧ roundV4 (roundV4 v) = roundV4 v := by
  have hsep := roundV4_idem v
  refine ⟨?_, ?_, ?_, hsep⟩ <;>
    simp only [collide, bounce, overlap, SAToverlap, Option.map, noopCb,
      hsep] <;>
    first
      | (split_ifs <;> simp_all)
      | simp_all

/-- Claim C8: each of collide, bounce and overlap returns the
CollisionInfo exactly when a collision is detected (none otherwise), and
the callback is applied exactly then, to the state in which all position
and velocity mutations of the call have already been performed, receiving
the same CollisionInfo that is returned. -/
theorem callback_after_mutations (self other : RigidBody) (raw : Option Vec)
    (cb : Cb) :
    (collide self other raw cb =
      match (collide self other raw noopCb).2 with
      | some c => (cb c (collide self other raw noopCb).1, some c)
      | none => collide self other raw noopCb)
    ∧ (bounce self other raw cb =
      match (bounce self other raw noopCb).2 with
      | some c => (cb c (bounce self other raw noopCb).1, some c)
      | none => bounce self other raw noopCb)
    ∧ (overlap self other raw cb =
      match (overlap self other raw noopCb).2 with
      | some c => (cb c (overlap self other raw noopCb).1, some c)
      | none => overlap self other raw noopCb)
    ∧ (collide self other raw cb).2.isSome = raw.isSome
    ∧ (bounce self other raw cb).2.isSome = raw.isSome
    ∧ (overlap self other raw cb).2.isSome = raw.isSome := by
  cases raw with
  | none => simp [collide, bounce, overlap, SAToverlap, noopCb]
  | some v =>
      refine ⟨?_, ?_, ?_, ?_, ?_, ?_⟩ <;>
        simp only [collide, bounce, overlap, SAToverlap, Option.map,
          noopCb] <;>
        first
          | (split_ifs <;> simp_all)
          | simp_all

/-- Claim C9: for a body of positive mass, set_impulse immediately
replaces the acceleration by force / mass component-wise, and registers
exactly one deferred call with the timer, carrying the requested delay,
whose firing resets the acceleration to (0, 0). -/
theorem set_impulse_spec (b : RigidBody) (f : Vec) (t : ℚ)
    (hm : 0 < b.mass) :
    (set_impulse b f t).1.acceleration = ⟨f.x / b.mass, f.y / b.mass⟩
    ∧ (set_impulse b f t).2.length = 1
    ∧ ∀ p ∈ (set_impulse b f t).2,
        p.1 = t ∧ (p.2 (set_impulse b f t).1).acceleration = ⟨0, 0⟩ := by
  refine ⟨rfl, rfl, ?_⟩
  intro p hp
  simp only [set_impulse, delayed_call, List.mem_singleton] at hp
  subst hp
  simp [set_force]

/-- Witness for claim C9 at the concrete input of the spec: mass 10,
force (0, -500), delay 200; the acceleration becomes (0, -50) and the one
registered call resets it to (0, 0). -/
theorem set_impulse_spec_witness :
    (0 : ℚ) < ({ bZero with mass := 10 } : RigidBody).mass
    ∧ (set_impulse { bZero with mass := 10 } ⟨0, -500⟩ 200).1.acceleration
        = ⟨0, -50⟩
    ∧ (set_impulse { bZero with mass := 10 } ⟨0, -500⟩ 200).2.length = 1
    ∧ ∀ p ∈ (set_impulse { bZero with mass := 10 } ⟨0, -500⟩ 200).2,
        p.1 = 200
        ∧ (p.2 (set_impulse { bZero with mass := 10 } ⟨0, -500⟩ 200).1
            ).acceleration = ⟨0, 0⟩ := by
  have h := set_impulse_spec { bZero with mass := 10 } ⟨0, -500⟩ 200
    (by norm_num)
  refine ⟨by norm_num, ?_, h.2.1, h.2.2⟩
  rw [h.1]
  norm_num

theorem floor_div_zero (c fd : ℚ) (hfd : 0 < fd) (h0 : 0 ≤ c)
    (h : c < fd) : ⌊c / fd⌋ = 0 := by
  rw [Int.floor_eq_zero_iff, Set.mem_Ico]
  exact ⟨div_nonneg h0 hfd.le, by rw [div_lt_one hfd]; exact h⟩

theorem rem_nonneg (c fd : ℚ) (hfd : 0 < fd) : 0 ≤ c - ⌊c / fd⌋ * fd := by
  have h1 : (⌊c / fd⌋ : ℚ) * fd ≤ c / fd * fd :=
    mul_le_mul_of_nonneg_right (Int.floor_le _) hfd.le
  rw [div_mul_cancel₀ c hfd.ne'] at h1
  linarith

theorem rem_lt (c fd : ℚ) (hfd : 0 < fd) : c - ⌊c / fd⌋ * fd < fd := by
  have h2 : c / fd < ⌊c / fd⌋ + 1 := Int.lt_floor_add_one _
  have h3 : c / fd * fd < ((⌊c / fd⌋ : ℚ) + 1) * fd :=
    mul_lt_mul_of_pos_right h2 hfd
  rw [div_mul_cancel₀ c hfd.ne'] at h3
  have h4 : ((⌊c / fd⌋ : ℚ) + 1) * fd = (⌊c / fd⌋ : ℚ) * fd + fd := by ring
  linarith

/-- The while loop of the fixed-update section runs exactly floor(c / fd)
iterations and leaves the remainder, provided the fuel is large enough. -/
theorem drain_eq : ∀ (fuel : ℕ) (c fd : ℚ), 0 < fd → 0 ≤ c →
    c < ((fuel : ℚ) + 1) * fd →
    drain fuel c fd = ((⌊c / fd⌋).toNat, c - ⌊c / fd⌋ * fd) := by
  intro fuel
  induction fuel with
  | zero =>
      intro c fd hfd h0 h
      have hz : ⌊c / fd⌋ = 0 :=
        floor_div_zero c fd hfd h0 (by push_cast at h; linarith)
      simp [drain, hz]
  | succ fuel ih =>
      intro c fd hfd h0 h
      simp only [drain]
      split_ifs with hcase
      · have h0' : 0 ≤ c - fd := sub_nonneg.2 hcase
        have h' : c - fd < ((fuel : ℚ) + 1) * fd := by
          push_cast at h
          have hx : ((fuel : ℚ) + 1 + 1) * fd = ((fuel : ℚ) + 1) * fd + fd := by
            ring
          linarith
        have hdiv : (c - fd) / fd = c / fd - 1 := by
          rw [sub_div, div_self hfd.ne']
        have hfl : ⌊(c - fd) / fd⌋ = ⌊c / fd⌋ - 1 := by
          rw [hdiv, Int.floor_sub_one]
        have hone : (1 : ℤ) ≤ ⌊c / fd⌋ := by
          rw [Int.le_floor]
          rw [show ((1 : ℤ) : ℚ) = 1 by norm_num]
          rw [le_div_iff hfd]
          linarith
        rw [ih (c - fd) fd hfd h0' h', hfl, Prod.mk.injEq]
        constructor
        · omega
        · push_cast
          ring
      · have hlt : c < fd := lt_of_not_le hcase
        have hz : ⌊c / fd⌋ = 0 := floor_div_zero c fd hfd h0 hlt
        simp [hz]

/-- One frame of the loop, characterized: the fixed update is invoked
floor((counter + dt) / fd) times, each recorded with dt equal to fd, and
the accumulator keeps the remainder, which is nonnegative and below fd. -/
theorem frame_spec (fuel : ℕ) (fd dt : ℚ) (s : SchedState)
    (hfd : 0 < fd) (hdt : 0 ≤ dt) (hfuel : dt ≤ (fuel : ℚ) * fd)
    (h0 : 0 ≤ s.physics_counter) (h1 : s.physics_counter < fd) :
    (frame fuel fd dt s).fixedCalls
      = s.fixedCalls
        ++ List.replicate (⌊(s.physics_counter + dt) / fd⌋).toNat fd
    ∧ (frame fuel fd dt s).physics_counter
      = (s.physics_counter + dt) - ⌊(s.physics_counter + dt) / fd⌋ * fd
    ∧ 0 ≤ (frame fuel fd dt s).physics_counter
    ∧ (frame fuel fd dt s).physics_counter < fd := by
  have hc0 : 0 ≤ s.physics_counter + dt := by linarith
  have hlt : s.physics_counter + dt < ((fuel : ℚ) + 1) * fd := by
    have hx : ((fuel : ℚ) + 1) * fd = (fuel : ℚ) * fd + fd := by ring
    linarith
  have hd := drain_eq fuel (s.physics_counter + dt) fd hfd hc0 hlt
  refine ⟨by simp [frame, hd], by simp [frame, hd], ?_, ?_⟩
  · simp only [frame, hd]
    exact rem_nonneg _ _ hfd
  · simp only [frame, hd]
    exact rem_lt _ _ hfd

/-- Running n frames from a state whose accumulator is in [0, fd) appends
only fixed updates run with dt = fd and maintains the accumulator
relation. -/
theorem runFrames_spec (fuel : ℕ) (fd dt : ℚ)
    (hfd : 0 < fd) (hdt : 0 ≤ dt) (hfuel : dt ≤ (fuel : ℚ) * fd) :
    ∀ (n : ℕ) (s : SchedState),
      0 ≤ s.physics_counter → s.physics_counter < fd →
      ∃ l : List ℚ,
        (runFrames n fuel fd dt s).fixedCalls = s.fixedCalls ++ l
        ∧ (∀ d ∈ l, d = fd)
        ∧ (runFrames n fuel fd dt s).physics_counter
            = s.physics_counter + n * dt - l.length * fd
        ∧ 0 ≤ (runFrames n fuel fd dt s).physics_counter
        ∧ (runFrames n fuel fd dt s).physics_counter < fd := by
  intro n
  induction n with
  | zero =>
      intro s h0 h1
      exact ⟨[], by simp [runFrames], by simp, by simp [runFrames], h0, h1⟩
  | succ n ih =>
      intro s h0 h1
      have hf := frame_spec fuel fd dt s hfd hdt hfuel h0 h1
      obtain ⟨l, hl1, hl2, hl3, hl4, hl5⟩ :=
        ih (frame fuel fd dt s) hf.2.2.1 hf.2.2.2
      have hfloornn : (0 : ℤ) ≤ ⌊(s.physics_counter + dt) / fd⌋ := by
        have : 0 ≤ s.physics_counter + dt := by linarith
        exact Int.floor_nonneg.2 (div_nonneg this hfd.le)
      refine ⟨List.replicate (⌊(s.physics_counter + dt) / fd⌋).toNat fd ++ l,
        ?_, ?_, ?_, ?_, ?_⟩
      · show (runFrames n fuel fd dt (frame fuel fd dt s)).fixedCalls = _
        rw [hl1, hf.1, List.append_assoc]
      · intro d hd
        rcases List.mem_append.1 hd with hmem | hmem
        · exact List.eq_of_mem_replicate hmem
        · exact hl2 d hmem
      · show (runFrames n fuel fd dt (frame fuel fd dt s)).physics_counter = _
        rw [hl3, hf.2.1]
        rw [List.length_append, List.length_replicate]
        have hcast : ((⌊(s.physics_counter + dt) / fd⌋).toNat : ℚ)
            = ((⌊(s.physics_counter + dt) / fd⌋ : ℤ) : ℚ) := by
          exact_mod_cast congrArg Int.cast
            (Int.toNat_of_nonneg hfloornn)
        push_cast
        push_cast at hcast
        rw [hcast]
        ring
      · exact hl4
      · exact hl5

/-- Claim C3: running the main loop for n frames with a mocked constant
frame delta dt (total wall-clock time n * dt) invokes the fixed-rate
physics update exactly floor(total / fixed_delta) times, each invocation
running with dt equal to fixed_delta, and the accumulator is decremented
by fixed_delta per invocation so that only a remainder smaller than
fixed_delta carries across frames. The fuel argument bounds the inner
while loop; any fuel with dt at most fuel * fixed_delta suffices. -/
theorem fixed_timestep_count (n fuel : ℕ) (fd dt : ℚ)
    (hfd : 0 < fd) (hdt : 0 ≤ dt) (hfuel : dt ≤ (fuel : ℚ) * fd) :
    (runFrames n fuel fd dt ⟨0, []⟩).fixedCalls.length
        = (⌊((n : ℚ) * dt) / fd⌋).toNat
    ∧ (∀ d ∈ (runFrames n fuel fd dt ⟨0, []⟩).fixedCalls, d = fd)
    ∧ (runFrames n fuel fd dt ⟨0, []⟩).physics_counter
        = (n : ℚ) * dt
          - (runFrames n fuel fd dt ⟨0, []⟩).fixedCalls.length * fd
    ∧ 0 ≤ (runFrames n fuel fd dt ⟨0, []⟩).physics_counter
    ∧ (runFrames n fuel fd dt ⟨0, []⟩).physics_counter < fd := by
  obtain ⟨l, hl1, hl2, hl3, hl4, hl5⟩ :=
    runFrames_spec fuel fd dt hfd hdt hfuel n ⟨0, []⟩ le_rfl hfd
  have hlen : (runFrames n fuel fd dt ⟨0, []⟩).fixedCalls = l := by
    simpa using hl1
  have hcounter : (runFrames n fuel fd dt ⟨0, []⟩).physics_counter
      = (n : ℚ) * dt - l.length * fd := by
    rw [hl3]; ring
  have hub : (l.length : ℚ) * fd ≤ (n : ℚ) * dt := by
    rw [hcounter] at hl4
    linarith
  have hlb : (n : ℚ) * dt < ((l.length : ℚ) + 1) * fd := by
    rw [hcounter] at hl5
    have hx : ((l.length : ℚ) + 1) * fd = (l.length : ℚ) * fd + fd := by ring
    linarith
  have hfloor : ⌊((n : ℚ) * dt) / fd⌋ = (l.length : ℤ) := by
    rw [Int.floor_eq_iff]
    constructor
    · rw [le_div_iff hfd]
      exact_mod_cast hub
    · rw [div_lt_iff hfd]
      push_cast
      push_cast at hlb
      linarith
  refine ⟨?_, ?_, ?_, ?_, ?_⟩
  · rw [hlen, hfloor]
    omega
  · rw [hlen]; exact hl2
  · rw [hlen]; exact hcounter
  · exact hl4
  · exact hl5

/-- Witness for claim C3 at a concrete input: 3 frames of delta 1 with
fixed delta 2/5 and fuel 3: the hypotheses hold and the theorem applies,
giving floor(3 / (2/5)) = 7 fixed updates. -/
theorem fixed_timestep_count_witness :
    ((0 : ℚ) < 2/5 ∧ (0 : ℚ) ≤ 1 ∧ (1 : ℚ) ≤ ((3 : ℕ) : ℚ) * (2/5))
    ∧ ((runFrames 3 3 (2/5) 1 ⟨0, []⟩).fixedCalls.length
          = (⌊(((3 : ℕ) : ℚ) * 1) / (2/5)⌋).toNat
      ∧ (∀ d ∈ (runFrames 3 3 (2/5) 1 ⟨0, []⟩).fixedCalls, d = 2/5)
      ∧ (runFrames 3 3 (2/5) 1 ⟨0, []⟩).physics_counter
          = ((3 : ℕ) : ℚ) * 1
            - (runFrames 3 3 (2/5) 1 ⟨0, []⟩).fixedCalls.length * (2/5)
      ∧ 0 ≤ (runFrames 3 3 (2/5) 1 ⟨0, []⟩).physics_counter
      ∧ (runFrames 3 3 (2/5) 1 ⟨0, []⟩).physics_counter < 2/5) :=
  ⟨⟨by norm_num, by norm_num, by norm_num⟩,
    fixed_timestep_count 3 3 (2/5) 1 (by norm_num) (by norm_num)
      (by norm_num)⟩

end Rubato
